import Mathlib

/-!
# Verification of the USABench response-parsing and scoring engine

A shallow embedding of the core algorithms of the USABench repository:
the value matchers, the function-call extractor, the function-call scorer,
the SQL extractors, the SQL scorers, the evaluation orchestrator and the
results aggregator, together with theorems about them.

Python strings are modelled as `List Char` (`PyStr`); Python numbers as
`Int` / `ℚ` (floats are modelled exactly as rationals, which is faithful for
every comparison and arithmetic operation the evaluators perform on them);
Python dictionaries as association lists with insertion-order semantics;
the external collaborators (LLM client, SQLite store, government data APIs)
as explicitly quantified oracle functions, following the collaborator
contracts in the specification.
-/

/-- Python `str` values, modelled as their list of characters. -/
abbrev PyStr := List Char

/-- Python `\s` / `str.strip()` whitespace (ASCII fragment). -/
def isPySpace (c : Char) : Bool :=
  c = ' ' || c = '\t' || c = '\n' || c = '\r' || c = Char.ofNat 11 || c = Char.ofNat 12

/-- Python regex `\w` word characters (ASCII fragment). -/
def isWordChar (c : Char) : Bool :=
  ('a' ≤ c && c ≤ 'z') || ('A' ≤ c && c ≤ 'Z') || ('0' ≤ c && c ≤ '9') || c = '_'

/-- ASCII decimal digits, Python `str.isdigit` (ASCII fragment). -/
def isDigitChar (c : Char) : Bool := '0' ≤ c && c ≤ '9'

/-- Python `str.lower()`. -/
def lowerL (s : PyStr) : PyStr := s.map Char.toLower

/-- Python `str.upper()`. -/
def upperL (s : PyStr) : PyStr := s.map Char.toUpper

/-- Boolean test that `pat` begins the list `s` (used for Python
`str.startswith` and as the primitive of substring search). -/
def lhp : PyStr → PyStr → Bool
  | [], _ => true
  | _ :: _, [] => false
  | a :: as, b :: bs => a == b && lhp as bs

/-- Python substring containment `pat in s`. -/
def listHasSub (pat : PyStr) : PyStr → Bool
  | [] => lhp pat []
  | c :: t => lhp pat (c :: t) || listHasSub pat t

/-- Drop the longest suffix of characters satisfying `p`
(Python `str.rstrip` with a character class). -/
def rstripWhile (p : Char → Bool) (s : PyStr) : PyStr :=
  (s.reverse.dropWhile p).reverse

/-- Python `str.strip()`. -/
def pyStrip (s : PyStr) : PyStr := rstripWhile isPySpace (s.dropWhile isPySpace)

/-- The text before the first occurrence of `sep` (the whole string if `sep`
does not occur): Python `s.split(sep)[0]`. -/
def beforeFirst (sep : PyStr) : PyStr → PyStr
  | [] => []
  | c :: rest => if lhp sep (c :: rest) then [] else c :: beforeFirst sep rest

/-- The text after the first occurrence of `sep`, `none` if `sep` does not
occur. -/
def afterFirst (sep : PyStr) : PyStr → Option PyStr
  | [] => none
  | c :: rest =>
    if lhp sep (c :: rest) then some (rest.drop (sep.length - 1))
    else afterFirst sep rest

/-- Case-insensitive variant of `lhp` (ASCII case folding via
`Char.toLower`), for regexes compiled with `re.IGNORECASE`. -/
def lhpCI : PyStr → PyStr → Bool
  | [], _ => true
  | _ :: _, [] => false
  | a :: as, b :: bs => a.toLower == b.toLower && lhpCI as bs

/-- Case-insensitive `afterFirst`. -/
def afterFirstCI (sep : PyStr) : PyStr → Option PyStr
  | [] => none
  | c :: rest =>
    if lhpCI sep (c :: rest) then some (rest.drop (sep.length - 1))
    else afterFirstCI sep rest

/-- Python `s.split('\n')`. -/
def splitLines : PyStr → List PyStr
  | [] => [[]]
  | c :: rest =>
    if c = '\n' then [] :: splitLines rest
    else
      match splitLines rest with
      | [] => [[c]]
      | l :: ls => (c :: l) :: ls

/-- Python `' '.join(ls)`. -/
def joinSpace : List PyStr → PyStr
  | [] => []
  | [x] => x
  | x :: y :: ys => x ++ (' ' :: joinSpace (y :: ys))

/-- Value of an all-digits character list read in base 10. -/
def digitsToNat (s : PyStr) : Nat := s.foldl (fun acc c => acc * 10 + (c.toNat - 48)) 0

/-- Python `int(s)` on a string: optional sign then decimal digits, with
surrounding whitespace allowed; `none` models `ValueError`.
(Underscore digit separators are not modelled.) -/
def strParseInt? (s : PyStr) : Option Int :=
  let t := pyStrip s
  let f : Int × PyStr :=
    match t with
    | '-' :: r => (-1, r)
    | '+' :: r => (1, r)
    | r => (1, r)
  if (!f.2.isEmpty) && f.2.all isDigitChar then some (f.1 * (digitsToNat f.2 : Int))
  else none

/-- Python `float(s)` on a string: optional sign, decimal digits with an
optional fractional part, surrounding whitespace allowed; `none` models
`ValueError`. (Exponents, `inf` and `nan` literals are not modelled; no
evaluator input in the claims uses them.) -/
def strParseFloat? (s : PyStr) : Option ℚ :=
  let t := pyStrip s
  let sf : ℚ × PyStr :=
    match t with
    | '-' :: r => (-1, r)
    | '+' :: r => (1, r)
    | r => (1, r)
  let ip := sf.2.takeWhile isDigitChar
  let rest := sf.2.drop ip.length
  match rest with
  | [] => if ip.isEmpty then none else some (sf.1 * (digitsToNat ip : ℚ))
  | '.' :: r2 =>
    let fp := r2.takeWhile isDigitChar
    if (r2.drop fp.length).isEmpty && !(ip.isEmpty && fp.isEmpty) then
      some (sf.1 * ((digitsToNat ip : ℚ) + (digitsToNat fp : ℚ) / (10 : ℚ) ^ fp.length))
    else none
  | _ => none

/-- The scalar values the evaluators manipulate: Python `int`, `float`
(modelled exactly as `ℚ`), `str`, `bool` and `None`. -/
inductive Value where
  | VInt : Int → Value
  | VFloat : ℚ → Value
  | VStr : PyStr → Value
  | VBool : Bool → Value
  | VNone : Value
deriving DecidableEq

open Value

/-- Decimal rendering of a natural number. -/
def natDecimal (n : Nat) : PyStr := (toString n).toList

/-- Decimal rendering of an integer (Python `str(int)`). -/
def intDecimal (i : Int) : PyStr := (toString i).toList

/-- Decimal digits of a proper fraction `r / d` (`r < d`), up to `fuel`
digits. -/
def fracDigits : Nat → Nat → Nat → PyStr
  | 0, _, _ => []
  | fuel + 1, r, d =>
    if r = 0 then []
    else
      let r10 := r * 10
      Char.ofNat (48 + r10 / d) :: fracDigits fuel (r10 % d) d

/-- Python `str(float)` for floats modelled as rationals: sign, integer part,
`'.'`, fractional digits (`"1.0"`, `"0.5"`, ...). Faithful for terminating
decimals of at most 30 digits; no claim depends on the rendering of other
floats. -/
def ratRender (q : ℚ) : PyStr :=
  let sign : PyStr := if q < 0 then ['-'] else []
  let n := q.num.natAbs
  let d := q.den
  let frac := fracDigits 30 (n % d) d
  sign ++ natDecimal (n / d) ++ ['.'] ++ (if frac.isEmpty then ['0'] else frac)

/-- Python `str(v)` on a scalar value. -/
def pyStrV : Value → PyStr
  | VInt i => intDecimal i
  | VFloat q => ratRender q
  | VStr s => s
  | VBool b => if b then "True".toList else "False".toList
  | VNone => "None".toList

/-- The numeric view Python uses for `==` and `isinstance(v, (int, float))`:
ints, floats and bools (a subclass of `int`, valued 1 / 0). -/
def pyNum? : Value → Option ℚ
  | VInt i => some (i : ℚ)
  | VFloat q => some q
  | VBool b => some (if b then 1 else 0)
  | _ => none

/-- Python `==` on scalar values: numeric types compare by value across
`int` / `float` / `bool`; strings compare as strings; `None` equals only
`None`; everything else is unequal. -/
def pyEq (a b : Value) : Bool :=
  match a, b with
  | VStr s, VStr t => decide (s = t)
  | VNone, VNone => true
  | _, _ =>
    match pyNum? a, pyNum? b with
    | some x, some y => decide (x = y)
    | _, _ => false

/-- Python `float(v)`: numbers and bools convert, strings are parsed,
everything else raises (`none`). -/
def pyFloatV? : Value → Option ℚ
  | VStr s => strParseFloat? s
  | v => pyNum? v

/-- Truncation of a rational toward zero (Python `int(float)`). -/
def ratTrunc (q : ℚ) : Int := q.num.tdiv (q.den : Int)

/-- Python `int(v)`: ints pass through, floats truncate toward zero, bools
give 1 / 0, strings are parsed, everything else raises (`none`). -/
def pyIntV? : Value → Option Int
  | VInt i => some i
  | VFloat q => some (ratTrunc q)
  | VBool b => some (if b then 1 else 0)
  | VStr s => strParseInt? s
  | VNone => none

/-- Rule 2 of `berkeley_fcl.FunctionCallEvaluator._parameters_match`: both
values convert with `float` and differ by less than `0.01`. -/
def numRule (e p : Value) : Bool :=
  match pyFloatV? e, pyFloatV? p with
  | some x, some y => decide (|x - y| < 1 / 100)
  | _, _ => false

/-- Rule 3 of `_parameters_match`: `str(e).lower() == str(p).lower()`
(`str` never fails). -/
def strRule (e p : Value) : Bool := decide (lowerL (pyStrV e) = lowerL (pyStrV p))

/-- Rule 4 of `_parameters_match`: both values convert with `int` and differ
by at most one (the calendar-year tolerance). -/
def yearRule (e p : Value) : Bool :=
  match pyIntV? e, pyIntV? p with
  | some x, some y => decide (|x - y| ≤ 1)
  | _, _ => false

/-- Model of `berkeley_fcl.FunctionCallEvaluator._parameters_match`: exact Python
equality, then the `float` tolerance rule, then case-insensitive string
equality, then the year-tolerance rule. Each source rule early-returns
`True`, so the sequential rules compose as a disjunction. -/
def parameters_match (e p : Value) : Bool :=
  pyEq e p || numRule e p || strRule e p || yearRule e p

/-- The string rule of `berkeley_function.FunctionCallEvaluator._values_match`:
both operands are `str` instances and equal up to case. -/
def strCI (e p : Value) : Bool :=
  match e, p with
  | VStr a, VStr b => decide (lowerL a = lowerL b)
  | _, _ => false

/-- The numeric rule of `_values_match`: both operands are
`isinstance (int, float)` (including `bool`) and differ by less than `0.001`. -/
def numClose (e p : Value) : Bool :=
  match pyNum? e, pyNum? p with
  | some x, some y => decide (|x - y| < 1 / 1000)
  | _, _ => false

/-- Model of `berkeley_function.FunctionCallEvaluator._values_match`: exact Python
equality, case-insensitive string equality, then numeric closeness. -/
def values_match (e p : Value) : Bool := pyEq e p || strCI e p || numClose e p

/-! ## Call extraction (`berkeley_function.FunctionCallEvaluator`)

The five regex patterns of `_extract_function_calls` are modelled by
dedicated position matchers; `re.finditer` is modelled by a left-to-right
scan that, on a match, resumes after the matched text, and otherwise
advances one character.  All regexes are compiled with
`re.IGNORECASE | re.MULTILINE`. -/

/-- One extracted function call (`{"function_name": ..., "parameters": ...}`);
the parameter dictionary is an insertion-ordered association list with
unique keys. -/
structure FCall where
  function_name : PyStr
  parameters : List (PyStr × Value)
deriving DecidableEq

/-- Characters stripped by Python `value.strip('"\x27')` (double and single
quotes). -/
def quoteChars : List Char := ['"', Char.ofNat 39]

/-- Python `value.strip('"\x27')`. -/
def stripQuotes (s : PyStr) : PyStr :=
  rstripWhile (fun c => quoteChars.contains c) (s.dropWhile (fun c => quoteChars.contains c))

/-- Python dict assignment `d[k] = v`: replace in place if the key exists,
else append. -/
def dictSet (d : List (PyStr × Value)) (k : PyStr) (v : Value) : List (PyStr × Value) :=
  if d.any (fun kv => kv.1 == k) then d.map (fun kv => if kv.1 == k then (k, v) else kv)
  else d ++ [(k, v)]

/-- Python dict lookup `d.get(k)`. -/
def dlookup (d : List (PyStr × Value)) (k : PyStr) : Option Value :=
  (d.find? (fun kv => kv.1 == k)).map (fun kv => kv.2)

/-- Model of `berkeley_function.FunctionCallEvaluator._convert_parameter_value`:
all-digit strings (ignoring dots and minus signs) parse as numbers, then
booleans, then `null` / `none`, else the string itself.  `none` models a
`ValueError` escaping from `int(...)` / `float(...)` (e.g. on `"1.2.3"`),
which aborts the surrounding parameter loop. -/
def convert_parameter_value (v0 : PyStr) : Option Value :=
  let v := pyStrip v0
  let digitsOnly := v.filter (fun c => !(c == '.' || c == '-'))
  if (!digitsOnly.isEmpty) && digitsOnly.all isDigitChar then
    if v.any (fun c => c == '.') then (strParseFloat? v).map VFloat
    else (strParseInt? v).map VInt
  else if lowerL v = "true".toList then some (VBool true)
  else if lowerL v = "false".toList then some (VBool false)
  else if lowerL v = "null".toList ∨ lowerL v = "none".toList then some VNone
  else some (VStr v)

/-- Match the regex `(\w+)\s*=\s*([^,]+)` at the start of `s`, returning the
two groups and the remaining text.  When everything between `=` and the next
comma is whitespace, backtracking leaves exactly the last of those characters
to `[^,]+`, which the model reproduces. -/
def matchKV (s : PyStr) : Option ((PyStr × PyStr) × PyStr) :=
  let k := s.takeWhile isWordChar
  if k.isEmpty then none
  else
    let r := (s.drop k.length).dropWhile isPySpace
    match r with
    | '=' :: r2 =>
      let region := r2.takeWhile (fun c => c != ',')
      let ws := region.takeWhile isPySpace
      let v := region.drop ws.length
      if !v.isEmpty then some ((k, v), r2.drop region.length)
      else if !ws.isEmpty then some ((k, ws.reverse.take 1), r2.drop region.length)
      else none
    | _ => none

/-- Fuel-indexed scan implementing `re.finditer`: try the matcher at each
position, resuming after a match.  Every matcher used consumes at least one
character on success, so fuel `s.length + 1` (supplied by `finditer`) always
suffices. -/
def finditerF (m : PyStr → Option ((PyStr × PyStr) × PyStr)) :
    Nat → PyStr → List (PyStr × PyStr)
  | 0, _ => []
  | fuel + 1, s =>
    match m s with
    | some (g, tail) => g :: finditerF m fuel tail
    | none =>
      match s with
      | [] => []
      | _ :: rest => finditerF m fuel rest

/-- Model of `re.finditer` over the whole input. -/
def finditer (m : PyStr → Option ((PyStr × PyStr) × PyStr)) (s : PyStr) :
    List (PyStr × PyStr) :=
  finditerF m (s.length + 1) s

/-- The `for key, value in pairs` loop body of `_parse_parameters`:
convert each value and assign into the dict; a conversion error returns the
partially built dict (the `except` branch). -/
def kvFold : List (PyStr × PyStr) → List (PyStr × Value) → List (PyStr × Value)
  | [], acc => acc
  | (k, v) :: rest, acc =>
    match convert_parameter_value (stripQuotes (pyStrip v)) with
    | some val => kvFold rest (dictSet acc k val)
    | none => acc

/-- Model of `berkeley_function.FunctionCallEvaluator._parse_parameters`. -/
def parse_parameters (ps : PyStr) : List (PyStr × Value) :=
  if (pyStrip ps).isEmpty then []
  else if ps.any (fun c => c == '=') then kvFold (finditer matchKV ps) []
  else []

/-- Try to strip a case-insensitive literal from the front of `s`. -/
def stripPreCI (pat s : PyStr) : Option PyStr :=
  if lhpCI pat s then some (s.drop pat.length) else none

/-- Match `Function:\s*(\w+)\s*\nParameters:\s*(.+?)(?=\n\n|\n$|$)` at the
start of `s`.  `\s*\n` matches exactly when the maximal whitespace run after
the name is nonempty, ends with a newline, and is followed by
`Parameters:`; under the `MULTILINE` flag the lookahead holds exactly at end
of input or before a newline, so the lazy group is the nonempty remainder of
the line.  (The regex can also backtrack part of the whitespace after
`Parameters:` into the group when the rest of the line is blank; that edge
case yields an all-whitespace group, which parses to no parameters, and is
not modelled.) -/
def matchP1 (s : PyStr) : Option ((PyStr × PyStr) × PyStr) :=
  match stripPreCI ("Function:".toList) s with
  | none => none
  | some r1 =>
    let r2 := r1.dropWhile isPySpace
    let name := r2.takeWhile isWordChar
    if name.isEmpty then none
    else
      let r3 := r2.drop name.length
      let w := r3.takeWhile isPySpace
      if w.isEmpty || !(w.reverse.take 1 == ['\n']) then none
      else
        match stripPreCI ("Parameters:".toList) (r3.drop w.length) with
        | none => none
        | some r4 =>
          let r5 := r4.dropWhile isPySpace
          let g2 := r5.takeWhile (fun c => c != '\n')
          if g2.isEmpty then none else some ((name, g2), r5.drop g2.length)

/-- Match `Function:\s*(\w+)\s*Parameters:\s*(.+?)(?=\n|$)` at the start of
`s` (the single-line variant; `\s*` may still cross newlines). -/
def matchP2 (s : PyStr) : Option ((PyStr × PyStr) × PyStr) :=
  match stripPreCI ("Function:".toList) s with
  | none => none
  | some r1 =>
    let r2 := r1.dropWhile isPySpace
    let name := r2.takeWhile isWordChar
    if name.isEmpty then none
    else
      let r3 := (r2.drop name.length).dropWhile isPySpace
      match stripPreCI ("Parameters:".toList) r3 with
      | none => none
      | some r4 =>
        let r5 := r4.dropWhile isPySpace
        let g2 := r5.takeWhile (fun c => c != '\n')
        if g2.isEmpty then none else some ((name, g2), r5.drop g2.length)

/-- Match `(\w+)\s*\((.*?)\)` at the start of `s`: a word, optional
whitespace, and a parenthesised argument text not containing `)` or a
newline. -/
def matchP3 (s : PyStr) : Option ((PyStr × PyStr) × PyStr) :=
  let name := s.takeWhile isWordChar
  if name.isEmpty then none
  else
    let r := (s.drop name.length).dropWhile isPySpace
    match r with
    | '(' :: r2 =>
      let g2 := r2.takeWhile (fun c => c != ')')
      if g2.any (fun c => c == '\n') then none
      else
        match r2.drop g2.length with
        | ')' :: tail => some ((name, g2), tail)
        | _ => none
    | _ => none

/-- Match `call\s+(\w+)\s*\((.*?)\)` (or `use\s+...`) at the start of `s`:
the literal word, mandatory whitespace, then the `matchP3` pattern. -/
def matchPcall (word : PyStr) (s : PyStr) : Option ((PyStr × PyStr) × PyStr) :=
  match stripPreCI word s with
  | none => none
  | some r1 =>
    let w := r1.takeWhile isPySpace
    if w.isEmpty then none
    else matchP3 (r1.drop w.length)

/-- The whitelist of known function names. -/
def all_functions : List PyStr :=
  ["get_cpi_data", "get_employment_cost_index", "get_productivity_data",
   "get_gdp_by_industry", "get_regional_income"].map String.toList

/-- Model of `berkeley_function.FunctionCallEvaluator._infer_default_parameters`. -/
def infer_default_parameters (f : PyStr) : List (PyStr × Value) :=
  if f = "get_cpi_data".toList then
    [("series_id".toList, VStr ("CUUR0000SA0".toList)),
     ("start_year".toList, VInt 2020), ("end_year".toList, VInt 2024)]
  else if f = "get_employment_cost_index".toList then
    [("series_id".toList, VStr ("CIU1010000000000I".toList)),
     ("start_year".toList, VInt 2020), ("end_year".toList, VInt 2024)]
  else if f = "get_productivity_data".toList then
    [("series_id".toList, VStr ("PRS85006092".toList)),
     ("start_year".toList, VInt 2020), ("end_year".toList, VInt 2024)]
  else if f = "get_gdp_by_industry".toList then
    [("year".toList, VInt 2023), ("industry".toList, VStr ("ALL".toList)),
     ("table_id".toList, VStr ("1".toList))]
  else if f = "get_regional_income".toList then
    [("state".toList, VStr ("CA".toList)), ("year".toList, VInt 2023),
     ("line_code".toList, VStr ("SA1-1".toList))]
  else []

/-- Model of `berkeley_function.FunctionCallEvaluator._extract_function_calls`:
run all five patterns over the text in order, keep matches whose name is in
the whitelist, and fall back to bare-name search with default parameters if
no structured call was found. -/
def extract_function_calls (text : PyStr) : List FCall :=
  let ms := finditer matchP1 text ++ finditer matchP2 text ++ finditer matchP3 text ++
      finditer (matchPcall ("call".toList)) text ++ finditer (matchPcall ("use".toList)) text
  let calls := ms.filterMap (fun g =>
    if all_functions.any (fun f => f == g.1) then some ⟨g.1, parse_parameters g.2⟩ else none)
  if calls.isEmpty then
    all_functions.filterMap (fun f =>
      if listHasSub (lowerL f) (lowerL text) then some ⟨f, infer_default_parameters f⟩
      else none)
  else calls

/-! ## Binary SQL metrics (`metrics/binary_sql_metrics.Text2SQLEvaluator`)

The SQLite store is the relational-data-source collaborator: a function from
SQL text to either a list of rows (column-name / value pairs, as produced by
the dict row factory) or an error. -/

/-- A result row as produced by `sqlite3` with a dict row factory. -/
abbrev Row := List (PyStr × Value)

/-- The relational data source collaborator. -/
abbrev DB := PyStr → Except PyStr (List Row)

theorem length_dropWhile_le (p : Char → Bool) (l : PyStr) :
    (l.dropWhile p).length ≤ l.length := by
  induction l with
  | nil => simp
  | cons c rest ih =>
    by_cases h : p c
    · simp [List.dropWhile, h]
      omega
    · simp [List.dropWhile, h]

theorem drop_dropWhile_len (p : Char → Bool) (n : Nat) (l : PyStr) :
    ((l.drop n).dropWhile p).length ≤ l.length :=
  Nat.le_trans (length_dropWhile_le _ _) (by rw [List.length_drop]; omega)

/-- Remove every (case-insensitive) occurrence of `pat` together with the
whitespace run that follows it: `re.sub(pat + r'\s*', '', s)`.  (The second
`_clean_sql` substitution is case-sensitive, but its pattern has no cased
characters, so the case-insensitive model coincides.) -/
def stripPatCI (pat : PyStr) : PyStr → PyStr
  | [] => []
  | c :: rest =>
    if lhpCI pat (c :: rest) then
      stripPatCI pat ((rest.drop (pat.length - 1)).dropWhile isPySpace)
    else c :: stripPatCI pat rest
  termination_by s => s.length
  decreasing_by
    · simp only [List.length_cons]
      exact Nat.lt_succ_of_le (drop_dropWhile_len _ _ _)
    · simp only [List.length_cons]
      omega

/-- Remove `--` line comments: `re.sub(r'--.*?$', '', s, flags=re.MULTILINE)`.
The flag `true` means "inside a comment, skipping to the newline". -/
def stripLC : Bool → PyStr → PyStr
  | _, [] => []
  | false, '-' :: '-' :: rest => stripLC true rest
  | false, c :: rest => c :: stripLC false rest
  | true, '\n' :: rest => '\n' :: stripLC false rest
  | true, _ :: rest => stripLC true rest

theorem afterFirst_length_lt (sep : PyStr) :
    ∀ s t, afterFirst sep s = some t → t.length < s.length := by
  intro s
  induction s with
  | nil => intro t h; simp [afterFirst] at h
  | cons c rest ih =>
    intro t h
    by_cases hc : lhp sep (c :: rest) = true
    · simp only [afterFirst, hc, if_true, Option.some.injEq] at h
      subst h
      simp only [List.length_drop, List.length_cons]
      omega
    · simp only [afterFirst, hc, Bool.false_eq_true, if_false] at h
      exact Nat.lt_trans (ih t h) (by simp)

/-- Remove `/* ... */` block comments:
`re.sub(r'/\*.*?\*/', '', s, flags=re.DOTALL)`.  An unterminated `/*` is left
in place (the lazy regex then has no match, and no later occurrence can
match either, since no `*/` remains). -/
def stripBC : PyStr → PyStr
  | [] => []
  | '/' :: '*' :: rest =>
    (match h : afterFirst ("*/".toList) rest with
     | some rest2 => stripBC rest2
     | none => '/' :: '*' :: rest)
  | c :: rest => c :: stripBC rest
  termination_by s => s.length
  decreasing_by
    · have := afterFirst_length_lt ("*/".toList) rest rest2 h
      simp only [List.length_cons]; omega
    · simp only [List.length_cons]; omega

/-- Python `s.split()` (split on whitespace runs, no empty pieces); the
first argument accumulates the current word reversed. -/
def pyWordsAux : PyStr → PyStr → List PyStr
  | acc, [] => if acc.isEmpty then [] else [acc.reverse]
  | acc, c :: rest =>
    if isPySpace c then
      if acc.isEmpty then pyWordsAux [] rest else acc.reverse :: pyWordsAux [] rest
    else pyWordsAux (c :: acc) rest

/-- Python `s.split()`. -/
def pyWords (s : PyStr) : List PyStr := pyWordsAux [] s

/-- Model of `Text2SQLEvaluator._clean_sql`: strip markdown fences, comments, and
collapse whitespace runs. -/
def clean_sql (sql : PyStr) : PyStr :=
  pyStrip (joinSpace (pyWords (stripBC (stripLC false
    (stripPatCI ("```".toList) (stripPatCI ("```sql".toList) sql))))))

/-- One component score: `{'pass': ..., 'score': ..., 'details': ...}`. -/
structure CompScore where
  pass : Bool
  score : ℚ
  details : PyStr
deriving DecidableEq

/-- Model of `Text2SQLEvaluator._test_execution`: score 1 / pass if the cleaned SQL
executes, 0 / fail with the error text otherwise. -/
def test_execution (db : DB) (candidate : PyStr) : CompScore :=
  match db (clean_sql candidate) with
  | Except.ok _ => ⟨true, 1, "SQL executed successfully".toList⟩
  | Except.error e => ⟨false, 0, "SQL execution failed: ".toList ++ e⟩

/-- Lexicographic (code-point) comparison of Python strings. -/
def pyStrLt : PyStr → PyStr → Bool
  | [], [] => false
  | [], _ :: _ => true
  | _ :: _, [] => false
  | a :: as, b :: bs => if a = b then pyStrLt as bs else decide (a < b)

/-- Python `<=` on strings. -/
def pyStrLe (a b : PyStr) : Bool := !(pyStrLt b a)

/-- Lexicographic comparison of tuples of strings (the row keys). -/
def keyLt : List PyStr → List PyStr → Bool
  | [], [] => false
  | [], _ :: _ => true
  | _ :: _, [] => false
  | a :: as, b :: bs => if a = b then keyLt as bs else pyStrLt a b

/-- Python `<=` on tuples of strings. -/
def keyLe (a b : List PyStr) : Bool := !(keyLt b a)

/-- Insert into a `le`-sorted list. -/
def insertLe {α : Type} (le : α → α → Bool) (x : α) : List α → List α
  | [] => [x]
  | y :: ys => if le x y then x :: y :: ys else y :: insertLe le x ys

/-- Sorting by a boolean total order.  `keyLe` and `pyStrLe` are total and
antisymmetric (equal keys are identical lists), so this agrees with Python's
stable `list.sort` / `sorted`. -/
def sortByLe {α : Type} (le : α → α → Bool) : List α → List α
  | [] => []
  | x :: xs => insertLe le x (sortByLe le xs)

/-- Model of `tuple(sorted(str(v) for v in row.values()))`: the value-only key of a
result row. -/
def rowKey (row : Row) : List PyStr := sortByLe pyStrLe (row.map (fun kv => pyStrV kv.2))

/-- Length of the longest common prefix. -/
def commonPrefixLen {α : Type} [DecidableEq α] : List α → List α → Nat
  | a :: as, b :: bs => if a = b then commonPrefixLen as bs + 1 else 0
  | _, _ => 0

/-- Model of `difflib.SequenceMatcher.find_longest_match` over the whole ranges:
the longest block `a[i:i+k] == b[j:j+k]`, ties resolved toward the smallest
`i`, then the smallest `j`. -/
def bestMatch {α : Type} [DecidableEq α] (a b : List α) : Nat × Nat × Nat :=
  (List.range a.length).foldl (fun best i =>
    (List.range b.length).foldl (fun best j =>
      let k := commonPrefixLen (a.drop i) (b.drop j)
      if best.2.2 < k then (i, j, k) else best) best) (0, 0, 0)

/-- The total size of `SequenceMatcher`'s matching blocks, by the recursive
longest-block decomposition (fuel-indexed; `matchTotal` supplies ample
fuel).  The autojunk popularity heuristic, which only activates on sequences
of 200 elements or more, is not modelled. -/
def matchTotalF {α : Type} [DecidableEq α] : Nat → List α → List α → Nat
  | 0, _, _ => 0
  | fuel + 1, a, b =>
    let t := bestMatch a b
    if t.2.2 = 0 then 0
    else matchTotalF fuel (a.take t.1) (b.take t.2.1) + t.2.2 +
         matchTotalF fuel (a.drop (t.1 + t.2.2)) (b.drop (t.2.1 + t.2.2))

/-- Total matched elements between `a` and `b`. -/
def matchTotal {α : Type} [DecidableEq α] (a b : List α) : Nat :=
  matchTotalF (a.length + b.length + 1) a b

/-- Model of `difflib.SequenceMatcher(None, a, b).ratio() = 2*M / (len(a)+len(b))`,
with ratio 1 for two empty sequences. -/
def similarity_ratio {α : Type} [DecidableEq α] (a b : List α) : ℚ :=
  if a.length + b.length = 0 then 1
  else (2 * matchTotal a b : ℚ) / ((a.length : ℚ) + (b.length : ℚ))

/-- Model of `Text2SQLEvaluator._compare_results`: value-only, order-independent
comparison of result sets, with `difflib` partial credit. -/
def compare_results (candidate expected : List Row) : ℚ :=
  if expected.isEmpty && candidate.isEmpty then 1
  else if expected.isEmpty || candidate.isEmpty then 0
  else
    let cv := sortByLe keyLe (candidate.map rowKey)
    let ev := sortByLe keyLe (expected.map rowKey)
    if cv = ev then 1 else similarity_ratio cv ev

/-- Model of `Text2SQLEvaluator._test_result_correctness`: run the candidate, compare
to the expected rows, pass at similarity ≥ 0.9; any error scores 0. -/
def test_result_correctness (db : DB) (candidate : PyStr) (expected : List Row) : CompScore :=
  match db (clean_sql candidate) with
  | Except.error e => ⟨false, 0, "Result comparison failed: ".toList ++ e⟩
  | Except.ok rows =>
    let s := compare_results rows expected
    ⟨decide ((0.9 : ℚ) ≤ s), s, "Result similarity (threshold 0.9)".toList⟩

/-- The result record of `evaluate_binary_correctness`. -/
structure BinaryEvaluationResult where
  overall_pass : Bool
  overall_score : ℚ
  execution_accuracy : CompScore
  result_correctness : CompScore
  error : Option PyStr

/-- Model of `Text2SQLEvaluator.evaluate_binary_correctness`: the execution gate, the
result-correctness stage (skipped and defaulted to 1 when no expected
results are supplied — Python truthiness also treats an empty expected list
this way), and the thresholded pass plus weighted overall score.  The
`except` branch is unreachable because both component tests catch their own
errors, so `error` is always `none`. -/
def evaluate_binary_correctness (db : DB) (candidate_sql _expected_sql _question : PyStr)
    (expected_results : Option (List Row)) : BinaryEvaluationResult :=
  let execution := test_execution db candidate_sql
  let resultC : CompScore :=
    if execution.pass then
      match expected_results with
      | some (r :: rs) => test_result_correctness db candidate_sql (r :: rs)
      | _ => ⟨true, 1, "Query executed and returned results".toList⟩
    else ⟨false, 0, []⟩
  let execution_passes := decide ((0.8 : ℚ) ≤ execution.score)
  let result_passes := decide ((0.9 : ℚ) ≤ resultC.score)
  { overall_pass := execution_passes && result_passes
    overall_score := execution.score * (0.4 : ℚ) + resultC.score * (0.6 : ℚ)
    execution_accuracy := execution
    result_correctness := resultC
    error := none }

/-! ## SQL extraction and database validation
(`evaluators/sql.DatabaseValidationStrategy` and
`evaluators/enhanced_sql.EnhancedSQLEvaluator._extract_sql`) -/

/-- The literal "```". -/
def fence : PyStr := "```".toList

/-- The literal "```sql". -/
def fenceSql : PyStr := "```sql".toList

/-- Results of `DatabaseValidationStrategy._execute_sql`: fetched rows
(tuples of cell values) for SELECT queries, or an affected-row count. -/
inductive QueryResult where
  | rows : List (List Value) → QueryResult
  | count : Int → QueryResult
deriving DecidableEq

/-- The relational collaborator for the database-validation strategy: a SQL
text yields a `QueryResult` or raises. -/
abbrev DB2 := PyStr → Except PyStr QueryResult

/-- The four keywords used by `DatabaseValidationStrategy._extract_sql`. -/
def kw4 : List PyStr := ["SELECT", "INSERT", "UPDATE", "DELETE"].map String.toList

/-- The line scan of `DatabaseValidationStrategy._extract_sql`: the first
stripped line starting with one of the four keywords (case-insensitively). -/
def scanFirstLine : List PyStr → Option PyStr
  | [] => none
  | l :: rest =>
    let line := pyStrip l
    if kw4.any (fun k => lhp k (upperL line)) then some line else scanFirstLine rest

/-- Branches 2 and 3 of `DatabaseValidationStrategy._extract_sql`: the
content of a generic fenced block, accepted only if it mentions one of the
four keywords; otherwise the first keyword-initial line.  The regex
`` ```\s*(.*?)\s*``` `` requires a closing fence. -/
def sqlPyRest (response : PyStr) : Option PyStr :=
  match afterFirst fence response with
  | some rest =>
    if listHasSub fence rest then
      let cand := pyStrip (beforeFirst fence rest)
      if kw4.any (fun k => listHasSub k (upperL cand)) then some cand
      else scanFirstLine (splitLines response)
    else scanFirstLine (splitLines response)
  | none => scanFirstLine (splitLines response)

/-- Model of `DatabaseValidationStrategy._extract_sql`: the content of a
case-insensitively tagged `` ```sql `` fence (with a closing fence) is
returned **without** any keyword validation; otherwise a generic fence is
tried with validation, then the line scan; else absent. -/
def sqlPyExtract (response : PyStr) : Option PyStr :=
  match afterFirstCI fenceSql response with
  | some rest =>
    if listHasSub fence rest then some (pyStrip (beforeFirst fence rest))
    else sqlPyRest response
  | none => sqlPyRest response

/-- Python `==` on two fetched row tuples: same length and `pyEq`
elementwise (so numeric coercion applies: `1 == 1.0 == True`). -/
def pyRowEq : List Value → List Value → Bool
  | [], [] => true
  | a :: as, b :: bs => pyEq a b && pyRowEq as bs
  | _, _ => false

/-- Python `==` on two fetched row lists: same length and `pyRowEq`
elementwise, in order. -/
def pyRowsEq : List (List Value) → List (List Value) → Bool
  | [], [] => true
  | r :: rs, t :: ts => pyRowEq r t && pyRowsEq rs ts
  | _, _ => false

/-- Model of `DatabaseValidationStrategy._compare_results`: plain Python `==` —
ordered, positionwise equality of the fetched row lists under Python value
equality (which identifies `1`, `1.0` and `True`), or equality of the scalar
row counts; a row list never equals a count. -/
def compare_results_db : QueryResult → QueryResult → Bool
  | QueryResult.rows a, QueryResult.rows b => pyRowsEq a b
  | QueryResult.count a, QueryResult.count b => decide (a = b)
  | _, _ => false

/-- Model of `DatabaseValidationStrategy.validate` (its correctness flag and score):
extract the SQL (an empty extraction is falsy in Python and scores 0),
execute it, execute the ground-truth SQL when present, and compare; every
path yields score exactly 0.0 or 1.0, and any raised error yields
`(False, 0.0)`. -/
def validate_db (db2 : DB2) (ground_truth_sql : Option PyStr)
    (model_response : PyStr) : Bool × ℚ :=
  match sqlPyExtract model_response with
  | none => (false, 0)
  | some psql =>
    if psql.isEmpty then (false, 0)
    else
      match db2 psql with
      | Except.error _ => (false, 0)
      | Except.ok pres =>
        match ground_truth_sql with
        | some g =>
          if g.isEmpty then (true, 1)
          else
            match db2 g with
            | Except.error _ => (false, 0)
            | Except.ok gres =>
              let ok := compare_results_db pres gres
              (ok, if ok then 1 else 0)
        | none => (true, 1)

/-- The seven keywords of `EnhancedSQLEvaluator._extract_sql`. -/
def sql_keywords : List PyStr :=
  ["SELECT", "INSERT", "UPDATE", "DELETE", "CREATE", "DROP", "ALTER"].map String.toList

/-- Model of `any(keyword in sql.upper() for keyword in sql_keywords)`. -/
def containsKeyword (s : PyStr) : Bool :=
  sql_keywords.any (fun k => listHasSub k (upperL s))

/-- Python `sql.rstrip(';')`. -/
def rstripSemis (s : PyStr) : PyStr := rstripWhile (fun c => c == ';') s

/-- The inner collection loop of the enhanced line scan: strip and collect
nonempty lines from the current position, stopping after a line containing
`';'`, or at the first blank line once collection has started. -/
def collectSql : List PyStr → List PyStr → List PyStr
  | [], acc => acc
  | l :: rest, acc =>
    let curr := pyStrip l
    if !curr.isEmpty then
      if curr.any (fun c => c == ';') then acc ++ [curr]
      else collectSql rest (acc ++ [curr])
    else if !acc.isEmpty then acc
    else collectSql rest acc

/-- The line scan of `EnhancedSQLEvaluator._extract_sql`: at the first
stripped line starting with a keyword, collect the contiguous SQL lines,
join with spaces, drop trailing semicolons and strip. -/
def scanLines : List PyStr → Option PyStr
  | [] => none
  | l :: rest =>
    let line := pyStrip l
    if sql_keywords.any (fun k => lhp k (upperL line)) then
      some (pyStrip (rstripSemis (joinSpace (collectSql (l :: rest) []))))
    else scanLines rest

/-- The fence-handling step of `EnhancedSQLEvaluator._extract_sql`: the
content of a (verbatim) `` ```sql `` fence, else of a generic fence, else
the input unchanged (`sql.split("```sql")[1].split("```")[0].strip()` —
cutting the text after the first `` ```sql `` at the first following
`` ``` `` is the same text, since every later occurrence of `` ```sql ``
begins with `` ``` ``). -/
def enhFenced (sql0 : PyStr) : PyStr :=
  if listHasSub fenceSql sql0 then
    pyStrip (beforeFirst fence ((afterFirst fenceSql sql0).getD []))
  else if listHasSub fence sql0 then
    pyStrip (beforeFirst fence ((afterFirst fence sql0).getD []))
  else sql0

/-- Model of `EnhancedSQLEvaluator._extract_sql`: strip the response, take the fenced
content, drop trailing semicolons and strip; accept the candidate only if
nonempty and containing a SQL keyword; otherwise fall back to the line
scan, and finally absent. -/
def enhancedExtract (response : PyStr) : Option PyStr :=
  if response.isEmpty then none
  else
    let sql2 := pyStrip (rstripSemis (enhFenced (pyStrip response)))
    if (!sql2.isEmpty) && containsKeyword sql2 then some sql2
    else scanLines (splitLines response)

/-- The model text of concrete scenario B. -/
def c1Text : PyStr :=
  "Function: get_cpi_data\nParameters: start_year=2020, end_year=2024".toList

/-- The single call claimed for scenario B: `get_cpi_data` with integer
arguments `start_year=2020`, `end_year=2024`. -/
def c1Call : FCall :=
  ⟨"get_cpi_data".toList,
   [("start_year".toList, VInt 2020), ("end_year".toList, VInt 2024)]⟩

/-! ## Function-call scoring (`berkeley_function.FunctionCallEvaluator`) -/

/-- The government-data API collaborator, abstracted per call: whether
execution succeeds (`execute_function(...).get("success")`) and whether the
returned payload has meaningful data (`_has_meaningful_data`). -/
abbrev APIOracle := FCall → Bool × Bool

/-- Python `set(xs) == set(ys)`. -/
def sameNameSet (xs ys : List PyStr) : Bool :=
  xs.all (fun x => ys.any (fun y => y == x)) && ys.all (fun y => xs.any (fun x => x == y))

/-- Model of `_evaluate_function_selection`: 1.0 on exact set equality of the
function names (order-independent), else 0.0; an empty expected list
matches only an empty predicted list. -/
def evaluate_function_selection (predicted expected : List FCall) : ℚ :=
  if expected.isEmpty then (if predicted.isEmpty then 1 else 0)
  else if sameNameSet (expected.map (fun c => c.function_name))
      (predicted.map (fun c => c.function_name)) then 1
  else 0

/-- The "important" argument keys of `_score_parameters`. -/
def required_keys : List PyStr :=
  ["series_id", "year", "start_year", "end_year", "industry", "state"].map String.toList

/-- Model of `_score_parameters`: over the important keys present in the expected
call, the fraction also present and `_values_match`-equal in the predicted
call; if no important key is present, the same fraction over all expected
keys; an empty expected dict scores 1.0. -/
def score_parameters (expected predicted : List (PyStr × Value)) : ℚ :=
  if expected.isEmpty then 1
  else if !(required_keys.filter (fun k => (dlookup expected k).isSome)).isEmpty then
    (((required_keys.filter (fun k => (dlookup expected k).isSome)).countP (fun k =>
        match dlookup expected k, dlookup predicted k with
        | some ev, some pv => values_match ev pv
        | _, _ => false) : ℚ)) /
      (((required_keys.filter (fun k => (dlookup expected k).isSome)).length : ℚ))
  else
    ((expected.countP (fun kv =>
        match dlookup predicted kv.1 with
        | some pv => values_match kv.2 pv
        | none => false) : ℚ)) / ((expected.length : ℚ))

/-- Build the Python dict `{call["function_name"]: call["parameters"]}` in
insertion order, later duplicates overwriting. -/
def paramsByName (calls : List FCall) : List (PyStr × List (PyStr × Value)) :=
  calls.foldl (fun d c =>
    if d.any (fun kv => kv.1 == c.function_name) then
      d.map (fun kv => if kv.1 == c.function_name then (kv.1, c.parameters) else kv)
    else d ++ [(c.function_name, c.parameters)]) []

/-- Lookup in the name-keyed parameter dict. -/
def plookup (d : List (PyStr × List (PyStr × Value))) (k : PyStr) :
    Option (List (PyStr × Value)) :=
  (d.find? (fun kv => kv.1 == k)).map (fun kv => kv.2)

/-- Model of `_evaluate_parameter_accuracy`: 1.0 with no expected calls; 0.0 when the
call counts differ; otherwise the mean over the expected name-keyed dict of
`_score_parameters` against the predicted dict (expected names missing from
the predicted dict contribute 0 — the loop's `continue`). -/
def evaluate_parameter_accuracy (predicted expected : List FCall) : ℚ :=
  if expected.isEmpty then 1
  else if predicted.length ≠ expected.length then 0
  else if !(paramsByName expected).isEmpty then
    ((paramsByName expected).map (fun kv =>
      match plookup (paramsByName predicted) kv.1 with
      | none => (0 : ℚ)
      | some pp => score_parameters kv.2 pp)).sum / (((paramsByName expected).length : ℚ))
  else 1

/-- Model of `_evaluate_execution_success`: the fraction of predicted calls whose API
execution reports success; 0.0 with no predicted calls. -/
def evaluate_execution_success (api : APIOracle) (predicted : List FCall) : ℚ :=
  if predicted.isEmpty then 0
  else ((predicted.countP (fun c => (api c).1) : ℚ)) / ((predicted.length : ℚ))

/-- Model of `_evaluate_result_accuracy`: the fraction of predicted calls whose
execution succeeds and returns meaningful data; 0.0 with no predicted
calls. -/
def evaluate_result_accuracy (api : APIOracle) (predicted : List FCall) : ℚ :=
  if predicted.isEmpty then 0
  else ((predicted.countP (fun c => (api c).1 && (api c).2) : ℚ)) /
    ((predicted.length : ℚ))

/-- Model of `_get_expected_calls`: keyword heuristics over the lowered question. -/
def get_expected_calls (question : PyStr) : List FCall :=
  if listHasSub ("cpi".toList) (lowerL question) ||
      listHasSub ("consumer price".toList) (lowerL question) then
    [⟨"get_cpi_data".toList, [("series_id".toList, VStr ("CUUR0000SA0".toList))]⟩]
  else if listHasSub ("employment cost".toList) (lowerL question) ||
      listHasSub ("eci".toList) (lowerL question) then
    [⟨"get_employment_cost_index".toList,
      [("series_id".toList, VStr ("CIU1010000000000I".toList))]⟩]
  else if listHasSub ("gdp".toList) (lowerL question) &&
      listHasSub ("industry".toList) (lowerL question) then
    [⟨"get_gdp_by_industry".toList, [("year".toList, VInt 2023)]⟩]
  else if listHasSub ("income".toList) (lowerL question) &&
      (listHasSub ("state".toList) (lowerL question) ||
       listHasSub ("region".toList) (lowerL question)) then
    [⟨"get_regional_income".toList, [("year".toList, VInt 2023)]⟩]
  else [⟨"get_gdp_by_industry".toList, [("year".toList, VInt 2023)]⟩]

/-- The overall score of `FunctionCallEvaluator._validate_response`: the
average of the four binary components. -/
def fc_overall (api : APIOracle) (question response : PyStr) : ℚ :=
  (evaluate_function_selection (extract_function_calls response)
      (get_expected_calls question) +
   evaluate_parameter_accuracy (extract_function_calls response)
      (get_expected_calls question) +
   evaluate_execution_success api (extract_function_calls response) +
   evaluate_result_accuracy api (extract_function_calls response)) / 4

/-- Model of `FunctionCallEvaluator._validate_response` (happy path; the `except`
branch returns `(False, 0.0)`, also in `[0,1]`): the pass flag at
threshold 0.75 and the overall score. -/
def validate_response_fc (api : APIOracle) (question response : PyStr) : Bool × ℚ :=
  (decide ((0.75 : ℚ) ≤ fc_overall api question response),
   fc_overall api question response)

/-! ## Evaluation orchestrator (`core/base.BaseEvaluator`) -/

/-- Model of `core.base.UnifiedSample` (the fields the orchestrator and aggregator
read). -/
structure USample where
  id : PyStr
  question : PyStr
  evaluation_type : PyStr
  difficulty : PyStr

/-- Model of `core.base.EvaluationResult` (timestamps are not modelled; the elapsed
time is measured by the clock collaborator outside the shallow embedding
and is fixed to 0 here). -/
structure EvalResult where
  sample_id : PyStr
  question : PyStr
  evaluation_type : PyStr
  difficulty : PyStr
  model_response : PyStr
  is_correct : Bool
  score : ℚ
  error_message : Option PyStr
  execution_time : ℚ

/-- An evaluator: the abstract `_generate_response` and `_validate_response`
template methods, each able to raise (`Except.error`); validation returns
`(is_correct, score)` (the details dictionary does not influence the
orchestrator's control flow). -/
structure Orchestrator where
  gen : USample → Except PyStr PyStr
  validate : USample → PyStr → Except PyStr (Bool × ℚ)

/-- Model of `BaseEvaluator.evaluate_single`: one `try` block around generation and
validation; any raise is converted to an error record with
`is_correct = False`, `score = 0.0`, an empty `model_response` and the error
text. -/
def evaluate_single (o : Orchestrator) (s : USample) : EvalResult :=
  match o.gen s with
  | Except.error e =>
    ⟨s.id, s.question, s.evaluation_type, s.difficulty, [], false, 0, some e, 0⟩
  | Except.ok resp =>
    match o.validate s resp with
    | Except.error e =>
      ⟨s.id, s.question, s.evaluation_type, s.difficulty, [], false, 0, some e, 0⟩
    | Except.ok (c, sc) =>
      ⟨s.id, s.question, s.evaluation_type, s.difficulty, resp, c, sc, none, 0⟩

/-- Model of `BaseEvaluator.evaluate_batch`: a plain sequential loop appending one
result per sample. -/
def evaluate_batch (o : Orchestrator) (samples : List USample) : List EvalResult :=
  samples.map (evaluate_single o)

/-! ## Results aggregator (`sdk/results.ResultsAnalyzer`) -/

/-- The overall-metrics mapping of `get_overall_metrics`. -/
structure OverallMetrics where
  total_samples : Nat
  correct_samples : Nat
  accuracy : ℚ
  average_score : ℚ
  average_execution_time : ℚ
  error_rate : ℚ
deriving DecidableEq

/-- Mean of a list of rationals (pandas `.mean()`; all callers guard the
empty case before dividing). -/
def listMean (l : List ℚ) : ℚ := l.sum / ((l.length : ℚ))

/-- Model of `ResultsAnalyzer.get_overall_metrics`: the Python empty dict `{}`
(modelled as `none`) on an empty collection, else the statistics with their
denominators guarded as in the source. -/
def get_overall_metrics (rs : List EvalResult) : Option OverallMetrics :=
  if rs.isEmpty then none
  else
    some
      { total_samples := rs.length
        correct_samples := rs.countP (fun r => r.is_correct)
        accuracy := if rs.length > 0 then
            ((rs.countP (fun r => r.is_correct) : ℚ)) / ((rs.length : ℚ))
          else 0
        average_score := listMean (rs.map (fun r => r.score))
        average_execution_time := listMean (rs.map (fun r => r.execution_time))
        error_rate := if rs.length > 0 then
            ((rs.countP (fun r => r.error_message.isSome) : ℚ)) / ((rs.length : ℚ))
          else 0 }

/-- First-occurrence deduplication (pandas `.unique()` order). -/
def uniqueAux : List PyStr → List PyStr → List PyStr
  | [], _ => []
  | x :: rest, seen =>
    if seen.any (fun y => y == x) then uniqueAux rest seen
    else x :: uniqueAux rest (x :: seen)

/-- pandas `.unique()`. -/
def uniqueVals (l : List PyStr) : List PyStr := uniqueAux l []

/-- The per-group statistics shared by `get_metrics_by_type` and
`get_metrics_by_difficulty` (every group is nonempty by construction; the
denominators are still guarded, as in the source). -/
def group_metrics (rs : List EvalResult) : OverallMetrics :=
  { total_samples := rs.length
    correct_samples := rs.countP (fun r => r.is_correct)
    accuracy := if rs.length > 0 then
        ((rs.countP (fun r => r.is_correct) : ℚ)) / ((rs.length : ℚ))
      else 0
    average_score := listMean (rs.map (fun r => r.score))
    average_execution_time := listMean (rs.map (fun r => r.execution_time))
    error_rate := if rs.length > 0 then
        ((rs.countP (fun r => r.error_message.isSome) : ℚ)) / ((rs.length : ℚ))
      else 0 }

/-- Model of `ResultsAnalyzer.get_metrics_by_type`.  With zero records the
frame `pd.DataFrame([])` has no columns at all, so the column access
`self.df['evaluation_type'].unique()` raises `KeyError` before any
statistic is computed; with at least one record every column exists, and
each type group is nonempty. -/
def get_metrics_by_type (rs : List EvalResult) :
    Except PyStr (List (PyStr × OverallMetrics)) :=
  if rs.isEmpty then Except.error ("KeyError: evaluation_type".toList)
  else
    Except.ok ((uniqueVals (rs.map (fun r => r.evaluation_type))).map (fun t =>
      (t, group_metrics (rs.filter (fun r => r.evaluation_type == t)))))

/-- Model of `ResultsAnalyzer.get_metrics_by_difficulty`.  As in
`get_metrics_by_type`, the column access `self.df['difficulty'].unique()`
raises `KeyError` on the column-less empty frame. -/
def get_metrics_by_difficulty (rs : List EvalResult) :
    Except PyStr (List (PyStr × OverallMetrics)) :=
  if rs.isEmpty then Except.error ("KeyError: difficulty".toList)
  else
    Except.ok ((uniqueVals (rs.map (fun r => r.difficulty))).map (fun d =>
      (d, group_metrics (rs.filter (fun r => r.difficulty == d)))))

/-- The mapping returned by `get_error_analysis`: the error count, the
per-type error rates (absent — with the whole early return — when there are
no errors), and the error messages grouped by type and difficulty. -/
structure ErrorAnalysis where
  total_errors : Nat
  error_rate_by_type : Option (List (PyStr × ℚ))
  error_patterns : List (PyStr × List (PyStr × List PyStr))
deriving DecidableEq

/-- Model of `ResultsAnalyzer.get_error_analysis`.  The very first statement
accesses `self.df['error_message']`, which raises `KeyError` on the
column-less empty frame; with at least one record but no errors it returns
`{total_errors: 0, error_patterns: {}}` (no per-type rates); otherwise the
rates per evaluation type (each denominator is the size of a nonempty type
group) and the messages grouped by (type, difficulty). -/
def get_error_analysis (rs : List EvalResult) : Except PyStr ErrorAnalysis :=
  if rs.isEmpty then Except.error ("KeyError: error_message".toList)
  else if (rs.filter (fun r => r.error_message.isSome)).isEmpty then
    Except.ok ⟨0, none, []⟩
  else
    Except.ok
      { total_errors := (rs.filter (fun r => r.error_message.isSome)).length
        error_rate_by_type := some ((uniqueVals (rs.map (fun r => r.evaluation_type))).map
          (fun t =>
            (t, (((rs.filter (fun r => r.evaluation_type == t)).countP
                    (fun r => r.error_message.isSome) : ℚ)) /
                (((rs.filter (fun r => r.evaluation_type == t)).length : ℚ)))))
        error_patterns :=
          (uniqueVals ((rs.filter (fun r => r.error_message.isSome)).map
              (fun r => r.evaluation_type))).map (fun t =>
            (t, (uniqueVals (((rs.filter (fun r => r.error_message.isSome)).filter
                  (fun r => r.evaluation_type == t)).map (fun r => r.difficulty))).map
              (fun d =>
                (d, (((rs.filter (fun r => r.error_message.isSome)).filter
                      (fun r => r.evaluation_type == t && r.difficulty == d)).map
                  (fun r => r.error_message.getD [])))))) }

theorem pyEq_symm (a b : Value) : pyEq a b = pyEq b a := by
  cases a <;> cases b <;> simp [pyEq, pyNum?, eq_comm]

theorem numRule_symm (a b : Value) : numRule a b = numRule b a := by
  unfold numRule
  cases h1 : pyFloatV? a <;> cases h2 : pyFloatV? b <;> simp [abs_sub_comm]

theorem strRule_symm (a b : Value) : strRule a b = strRule b a := by
  simp [strRule, eq_comm]

theorem yearRule_symm (a b : Value) : yearRule a b = yearRule b a := by
  unfold yearRule
  cases h1 : pyIntV? a <;> cases h2 : pyIntV? b <;> simp [abs_sub_comm]

theorem strCI_symm (a b : Value) : strCI a b = strCI b a := by
  cases a <;> cases b <;> simp [strCI, eq_comm]

theorem numClose_symm (a b : Value) : numClose a b = numClose b a := by
  unfold numClose
  cases h1 : pyNum? a <;> cases h2 : pyNum? b <;> simp [abs_sub_comm]

/-- Claim C4: the Value Matcher treats integer values as calendar years with
an off-by-one tolerance: expected 2023 vs predicted 2024 matches, expected
2023 vs predicted 2021 does not. -/
theorem c4_year_tolerance :
    parameters_match (VInt 2023) (VInt 2024) = true ∧
    parameters_match (VInt 2023) (VInt 2021) = false := by
  constructor
  · have hy : yearRule (VInt 2023) (VInt 2024) = true := by
      simp [yearRule, pyIntV?]
    simp [parameters_match, hy]
  · have h1 : pyEq (VInt 2023) (VInt 2021) = false := by
      simp [pyEq, pyNum?]
    have h2 : numRule (VInt 2023) (VInt 2021) = false := by
      simp [numRule, pyFloatV?, pyNum?]
      norm_num
    have h3 : strRule (VInt 2023) (VInt 2021) = false := by decide
    have h4 : yearRule (VInt 2023) (VInt 2021) = false := by
      simp [yearRule, pyIntV?]
    simp [parameters_match, h1, h2, h3, h4]

/-- Claim C6: the Value Matcher is symmetric — both the year-tolerance
matcher (`_parameters_match`) and the numeric / case-insensitive-string
matcher (`_values_match`) agree on swapped arguments for every pair of
values. -/
theorem c6_value_matcher_symmetric (a b : Value) :
    parameters_match a b = parameters_match b a ∧
    values_match a b = values_match b a := by
  constructor
  · unfold parameters_match
    rw [pyEq_symm, numRule_symm, strRule_symm, yearRule_symm]
  · unfold values_match
    rw [pyEq_symm, strCI_symm, numClose_symm]

/-- Claim C1, counterexample: on the scenario-B text the Call Extractor does
not yield exactly the one claimed call — the text matches both the
two-line pattern `Function:\s*(\w+)\s*\nParameters:...` and the single-line
pattern `Function:\s*(\w+)\s*Parameters:...` (whose `\s*` also crosses the
newline), so the call is emitted twice. -/
theorem c1_call_extractor_counterexample :
    extract_function_calls c1Text ≠ [c1Call] := by decide

/-- Claim C1, amended: on the scenario-B text the Call Extractor yields
exactly two extracted calls, each with name `get_cpi_data` and arguments
mapping `start_year` to the integer 2020 and `end_year` to the integer 2024. -/
theorem c1_call_extractor_amended :
    extract_function_calls c1Text = [c1Call, c1Call] := by decide

/-- Claim C3: the SQL scorer's overall pass holds exactly when the execution
score is at least 0.8 and the result score is at least 0.9, and the overall
score always equals `0.4 * execution + 0.6 * result`, for every data-source
oracle, candidate SQL and expected result set. -/
theorem c3_sql_scorer_thresholds (db : DB) (c es q : PyStr) (er : Option (List Row)) :
    ((evaluate_binary_correctness db c es q er).overall_pass = true ↔
      ((0.8 : ℚ) ≤ (evaluate_binary_correctness db c es q er).execution_accuracy.score ∧
       (0.9 : ℚ) ≤ (evaluate_binary_correctness db c es q er).result_correctness.score)) ∧
    (evaluate_binary_correctness db c es q er).overall_score =
      (0.4 : ℚ) * (evaluate_binary_correctness db c es q er).execution_accuracy.score +
      (0.6 : ℚ) * (evaluate_binary_correctness db c es q er).result_correctness.score := by
  have hpass : (evaluate_binary_correctness db c es q er).overall_pass =
      (decide ((0.8 : ℚ) ≤ (evaluate_binary_correctness db c es q er).execution_accuracy.score) &&
       decide ((0.9 : ℚ) ≤ (evaluate_binary_correctness db c es q er).result_correctness.score)) := rfl
  have hscore : (evaluate_binary_correctness db c es q er).overall_score =
      (evaluate_binary_correctness db c es q er).execution_accuracy.score * (0.4 : ℚ) +
      (evaluate_binary_correctness db c es q er).result_correctness.score * (0.6 : ℚ) := rfl
  constructor
  · rw [hpass]
    simp [Bool.and_eq_true, decide_eq_true_eq]
  · rw [hscore]
    ring

/-- Claim C5: with expected result set `[{x:1},{x:2}]` and candidate rows
`[{val:2},{val:1}]`, the result-correctness comparison scores 1.0 — rows
are keyed by their sorted stringified cell values only, independent of
column names and row order. -/
theorem c5_value_only_comparison :
    compare_results
      [[("val".toList, VInt 2)], [("val".toList, VInt 1)]]
      [[("x".toList, VInt 1)], [("x".toList, VInt 2)]] = 1 := by
  decide

theorem commonPrefixLen_le_left {α : Type} [DecidableEq α] (a : List α) :
    ∀ b, commonPrefixLen a b ≤ a.length := by
  induction a with
  | nil => intro b; cases b <;> simp [commonPrefixLen]
  | cons x xs ih =>
    intro b
    cases b with
    | nil => simp [commonPrefixLen]
    | cons y ys =>
      by_cases h : x = y
      · simp only [commonPrefixLen, if_pos h, List.length_cons]
        have := ih ys
        omega
      · simp [commonPrefixLen, h]

theorem commonPrefixLen_le_right {α : Type} [DecidableEq α] (a : List α) :
    ∀ b, commonPrefixLen a b ≤ b.length := by
  induction a with
  | nil => intro b; cases b <;> simp [commonPrefixLen]
  | cons x xs ih =>
    intro b
    cases b with
    | nil => simp [commonPrefixLen]
    | cons y ys =>
      by_cases h : x = y
      · simp only [commonPrefixLen, if_pos h, List.length_cons]
        have := ih ys
        omega
      · simp [commonPrefixLen, h]

theorem foldl_inv {α β : Type _} (P : β → Prop) (f : β → α → β) :
    ∀ (l : List α) (b : β), P b → (∀ b' a, P b' → a ∈ l → P (f b' a)) →
      P (l.foldl f b) := by
  intro l
  induction l with
  | nil => intro b hb _; exact hb
  | cons x xs ih =>
    intro b hb hf
    exact ih (f b x) (hf b x hb (by simp))
      (fun b' a hb' ha => hf b' a hb' (by simp [ha]))

theorem bestMatch_bound {α : Type} [DecidableEq α] (a b : List α) :
    (bestMatch a b).1 + (bestMatch a b).2.2 ≤ a.length ∧
    (bestMatch a b).2.1 + (bestMatch a b).2.2 ≤ b.length := by
  unfold bestMatch
  apply foldl_inv (fun t : Nat × Nat × Nat =>
    t.1 + t.2.2 ≤ a.length ∧ t.2.1 + t.2.2 ≤ b.length)
  · simp
  · intro t i ht hi
    apply foldl_inv (fun t : Nat × Nat × Nat =>
      t.1 + t.2.2 ≤ a.length ∧ t.2.1 + t.2.2 ≤ b.length)
    · exact ht
    · intro t' j ht' hj
      by_cases hk : t'.2.2 < commonPrefixLen (a.drop i) (b.drop j)
      · have h1 : commonPrefixLen (a.drop i) (b.drop j) ≤ a.length - i := by
          have := commonPrefixLen_le_left (a.drop i) (b.drop j)
          rwa [List.length_drop] at this
        have h2 : commonPrefixLen (a.drop i) (b.drop j) ≤ b.length - j := by
          have := commonPrefixLen_le_right (a.drop i) (b.drop j)
          rwa [List.length_drop] at this
        have hia : i < a.length := List.mem_range.mp hi
        have hjb : j < b.length := List.mem_range.mp hj
        simp only [hk, if_true]
        constructor <;> omega
      · simp only [hk, if_false]
        exact ht'

theorem matchTotalF_le {α : Type} [DecidableEq α] :
    ∀ (fuel : Nat) (a b : List α),
      matchTotalF fuel a b ≤ a.length ∧ matchTotalF fuel a b ≤ b.length := by
  intro fuel
  induction fuel with
  | zero => intro a b; simp [matchTotalF]
  | succ n ih =>
    intro a b
    rw [matchTotalF]
    by_cases h : (bestMatch a b).2.2 = 0
    · simp [h]
    · simp only [h, if_false]
      obtain ⟨ha, hb⟩ := bestMatch_bound a b
      obtain ⟨l1, l2⟩ := ih (a.take (bestMatch a b).1) (b.take (bestMatch a b).2.1)
      obtain ⟨r1, r2⟩ :=
        ih (a.drop ((bestMatch a b).1 + (bestMatch a b).2.2))
           (b.drop ((bestMatch a b).2.1 + (bestMatch a b).2.2))
      rw [List.length_take] at l1 l2
      rw [List.length_drop] at r1 r2
      constructor <;> omega

theorem matchTotal_le {α : Type} [DecidableEq α] (a b : List α) :
    matchTotal a b ≤ a.length ∧ matchTotal a b ≤ b.length :=
  matchTotalF_le _ a b

theorem similarity_ratio_mem {α : Type} [DecidableEq α] (a b : List α) :
    0 ≤ similarity_ratio a b ∧ similarity_ratio a b ≤ 1 := by
  unfold similarity_ratio
  by_cases h : a.length + b.length = 0
  · simp [h]
  · simp only [h, if_false]
    have hpos : (0 : ℚ) < (a.length : ℚ) + (b.length : ℚ) := by
      have : 0 < a.length + b.length := Nat.pos_of_ne_zero h
      exact_mod_cast this
    constructor
    · apply div_nonneg _ (le_of_lt hpos)
      positivity
    · rw [div_le_one hpos]
      obtain ⟨h1, h2⟩ := matchTotal_le a b
      have : 2 * matchTotal a b ≤ a.length + b.length := by omega
      exact_mod_cast this

theorem lhp_append (p t : PyStr) : lhp p (p ++ t) = true := by
  induction p with
  | nil => simp [lhp]
  | cons a as ih => simp [lhp, ih]

theorem listHasSub_of_lhp (pat s : PyStr) (h : lhp pat s = true) :
    listHasSub pat s = true := by
  cases s with
  | nil => simpa [listHasSub] using h
  | cons c t => simp [listHasSub, h]

theorem lhp_map_toUpper (k : PyStr) :
    ∀ s, lhp k (upperL s) = true → ∃ p t, s = p ++ t ∧ upperL p = k := by
  induction k with
  | nil => intro s _; exact ⟨[], s, rfl, rfl⟩
  | cons a as ih =>
    intro s h
    cases s with
    | nil => simp [upperL, lhp] at h
    | cons b bs =>
      simp only [upperL, List.map_cons, lhp, Bool.and_eq_true, beq_iff_eq] at h
      obtain ⟨hab, h2⟩ := h
      obtain ⟨p, t, rfl, hp⟩ := ih bs h2
      refine ⟨b :: p, t, rfl, ?_⟩
      show Char.toUpper b :: upperL p = a :: as
      rw [hp, hab]

theorem dropWhile_app (p : Char → Bool) :
    ∀ l1 l2 : PyStr, (l1 ++ l2).dropWhile p =
      if (l1.dropWhile p).isEmpty then l2.dropWhile p else l1.dropWhile p ++ l2 := by
  intro l1
  induction l1 with
  | nil => intro l2; simp
  | cons c rest ih =>
    intro l2
    by_cases h : p c
    · rw [List.cons_append, List.dropWhile_cons, List.dropWhile_cons]
      simp only [h, if_true]
      exact ih l2
    · rw [List.cons_append, List.dropWhile_cons, List.dropWhile_cons]
      simp [h]

theorem rstrip_keep (f : Char → Bool) (p t : PyStr)
    (hall : ∀ c ∈ p, f c = false) :
    ∃ u, rstripWhile f (p ++ t) = p ++ u := by
  unfold rstripWhile
  rw [List.reverse_append, dropWhile_app]
  by_cases h : (t.reverse.dropWhile f).isEmpty
  · rw [if_pos h]
    have hrev : p.reverse.dropWhile f = p.reverse := by
      cases hp : p.reverse with
      | nil => simp
      | cons c cs =>
        have hc : c ∈ p := by
          have : c ∈ p.reverse := by rw [hp]; exact List.mem_cons_self _ _
          exact List.mem_reverse.mp this
        rw [List.dropWhile_cons, hall c hc]
        simp
    rw [hrev, List.reverse_reverse]
    exact ⟨[], by simp⟩
  · rw [if_neg h, List.reverse_append, List.reverse_reverse]
    exact ⟨(t.reverse.dropWhile f).reverse, rfl⟩

theorem strip_keep (p t : PyStr) (hne : p ≠ [])
    (hsemi : ∀ c ∈ p, (c == ';') = false) (hws : ∀ c ∈ p, isPySpace c = false) :
    ∃ u, pyStrip (rstripSemis (p ++ t)) = p ++ u := by
  obtain ⟨u1, h1⟩ := rstrip_keep (fun c => c == ';') p t hsemi
  rw [show rstripSemis (p ++ t) = rstripWhile (fun c => c == ';') (p ++ t) from rfl, h1]
  unfold pyStrip
  cases p with
  | nil => exact absurd rfl hne
  | cons c cs =>
    have hc : isPySpace c = false := hws c (List.mem_cons_self _ _)
    rw [List.cons_append, List.dropWhile_cons, hc]
    simp only [Bool.false_eq_true, if_false]
    rw [← List.cons_append]
    exact rstrip_keep isPySpace (c :: cs) u1 hws

theorem kw_chars : ∀ k ∈ sql_keywords, k ≠ [] ∧ ∀ c ∈ k, ('A' ≤ c ∧ c ≤ 'Z') := by
  decide

theorem upper_letter_not_semi_ws (c : Char)
    (h : 'A' ≤ Char.toUpper c ∧ Char.toUpper c ≤ 'Z') :
    (c == ';') = false ∧ isPySpace c = false := by
  constructor
  · by_contra hc
    rw [Bool.not_eq_false, beq_iff_eq] at hc
    subst hc
    revert h; decide
  · by_contra hw
    rw [Bool.not_eq_false] at hw
    simp only [isPySpace, Bool.or_eq_true, decide_eq_true_eq] at hw
    rcases hw with ((((hc | hc) | hc) | hc) | hc) | hc <;> subst hc <;> revert h <;> decide

theorem collectSql_append : ∀ (ls : List PyStr) (acc : List PyStr),
    ∃ t, collectSql ls acc = acc ++ t := by
  intro ls
  induction ls with
  | nil => intro acc; exact ⟨[], by simp [collectSql]⟩
  | cons l rest ih =>
    intro acc
    rw [collectSql]
    by_cases h1 : (pyStrip l).isEmpty
    · simp only [h1, Bool.not_true, Bool.false_eq_true, if_false]
      by_cases h2 : acc.isEmpty
      · simp only [h2, Bool.not_true, Bool.false_eq_true, if_false]
        exact ih acc
      · simp only [h2, Bool.not_false, if_true]
        exact ⟨[], by simp⟩
    · rw [Bool.not_eq_true] at h1
      simp only [h1, Bool.not_false, if_true]
      by_cases h2 : (pyStrip l).any (fun c => c == ';')
      · simp only [h2, if_true]
        exact ⟨[pyStrip l], rfl⟩
      · simp only [h2, Bool.false_eq_true, if_false]
        obtain ⟨t, ht⟩ := ih (acc ++ [pyStrip l])
        exact ⟨[pyStrip l] ++ t, by rw [ht, List.append_assoc]⟩

theorem collectSql_head (l : PyStr) (rest : List PyStr)
    (hne : (pyStrip l).isEmpty = false) :
    ∃ t, collectSql (l :: rest) [] = pyStrip l :: t := by
  rw [collectSql]
  simp only [hne, Bool.not_false, if_true]
  by_cases h2 : (pyStrip l).any (fun c => c == ';')
  · simp only [h2, if_true, List.nil_append]
    exact ⟨[], rfl⟩
  · simp only [h2, Bool.false_eq_true, if_false, List.nil_append]
    obtain ⟨t, ht⟩ := collectSql_append rest [pyStrip l]
    exact ⟨t, by rw [ht]; simp⟩

theorem joinSpace_cons (x : PyStr) (xs : List PyStr) :
    ∃ t, joinSpace (x :: xs) = x ++ t := by
  cases xs with
  | nil => exact ⟨[], by simp [joinSpace]⟩
  | cons y ys => exact ⟨' ' :: joinSpace (y :: ys), by rw [joinSpace]⟩

theorem keyword_head_preserved (k s r : PyStr) (hk : k ∈ sql_keywords)
    (h : lhp k (upperL s) = true) :
    containsKeyword (pyStrip (rstripSemis (s ++ r))) = true := by
  obtain ⟨p, t, rfl, hp⟩ := lhp_map_toUpper k s h
  obtain ⟨hne, hchars⟩ := kw_chars k hk
  have hpne : p ≠ [] := by
    intro h0
    subst h0
    simp only [upperL, List.map_nil] at hp
    exact hne hp.symm
  have hpc : ∀ c ∈ p, (c == ';') = false ∧ isPySpace c = false := by
    intro c hc
    apply upper_letter_not_semi_ws
    have : Char.toUpper c ∈ k := by
      rw [← hp]
      exact List.mem_map_of_mem _ hc
    exact hchars _ this
  rw [List.append_assoc]
  obtain ⟨u, hu⟩ := strip_keep p (t ++ r) hpne
    (fun c hc => (hpc c hc).1) (fun c hc => (hpc c hc).2)
  rw [hu]
  unfold containsKeyword
  rw [List.any_eq_true]
  refine ⟨k, hk, ?_⟩
  apply listHasSub_of_lhp
  have : upperL (p ++ u) = k ++ upperL u := by
    rw [upperL, List.map_append, ← hp]
    rfl
  rw [this]
  exact lhp_append k (upperL u)

theorem scanLines_sound : ∀ (ls : List PyStr) (s : PyStr),
    scanLines ls = some s → containsKeyword s = true := by
  intro ls
  induction ls with
  | nil => intro s h; simp [scanLines] at h
  | cons l rest ih =>
    intro s h
    rw [scanLines] at h
    by_cases hg : sql_keywords.any (fun k => lhp k (upperL (pyStrip l))) = true
    · simp only [hg, if_true, Option.some.injEq] at h
      subst h
      obtain ⟨k, hk, hlk⟩ := List.any_eq_true.mp hg
      have hne : (pyStrip l).isEmpty = false := by
        obtain ⟨hkne, _⟩ := kw_chars k hk
        cases hsl : pyStrip l with
        | nil =>
          rw [hsl] at hlk
          cases k with
          | nil => exact absurd rfl hkne
          | cons a as => simp [upperL, lhp] at hlk
        | cons c cs => simp
      obtain ⟨t1, ht1⟩ := collectSql_head l rest hne
      rw [ht1]
      obtain ⟨t2, ht2⟩ := joinSpace_cons (pyStrip l) t1
      rw [ht2]
      exact keyword_head_preserved k (pyStrip l) t2 hk hlk
    · simp only [hg, Bool.false_eq_true, if_false] at h
      exact ih s h

theorem scanFirstLine_sound : ∀ (ls : List PyStr) (s : PyStr),
    scanFirstLine ls = some s → kw4.any (fun k => listHasSub k (upperL s)) = true := by
  intro ls
  induction ls with
  | nil => intro s h; simp [scanFirstLine] at h
  | cons l rest ih =>
    intro s h
    rw [scanFirstLine] at h
    by_cases hg : kw4.any (fun k => lhp k (upperL (pyStrip l))) = true
    · simp only [hg, if_true, Option.some.injEq] at h
      subst h
      obtain ⟨k, hk, hlk⟩ := List.any_eq_true.mp hg
      rw [List.any_eq_true]
      exact ⟨k, hk, listHasSub_of_lhp _ _ hlk⟩
    · simp only [hg, Bool.false_eq_true, if_false] at h
      exact ih s h

theorem compare_results_mem (c e : List Row) :
    0 ≤ compare_results c e ∧ compare_results c e ≤ 1 := by
  unfold compare_results
  by_cases h1 : e.isEmpty && c.isEmpty
  · simp [h1]
  · by_cases h2 : e.isEmpty || c.isEmpty
    · simp [h1, h2]
    · simp only [h1, h2, if_false]
      by_cases h3 : sortByLe keyLe (c.map rowKey) = sortByLe keyLe (e.map rowKey)
      · simp [h3]
      · simp only [h3, if_false]
        exact similarity_ratio_mem _ _

/-- Claim C8, counterexample: the database-validation extractor returns the
contents of a sql-tagged fenced block without keyword validation — on the
text "```sql\nhello\n```" it accepts the candidate "hello", which contains
no SQL keyword. -/
theorem c8_sql_extractor_counterexample :
    sqlPyExtract ("```sql\nhello\n```".toList) = some ("hello".toList) ∧
    containsKeyword ("hello".toList) = false := by
  constructor <;> decide

/-- Claim C8, amended: the enhanced SQL extractor accepts a candidate
(including one from a sql-tagged fence) only if it contains at least one SQL
keyword case-insensitively, returning absent otherwise; the
database-validation extractor applies its keyword check on the generic-fence
and line-scan branches, but not on the sql-tagged fence branch. -/
theorem c8_sql_extractor_amended :
    (∀ response s : PyStr, enhancedExtract response = some s →
      containsKeyword s = true) ∧
    (∀ response s : PyStr, sqlPyRest response = some s →
      kw4.any (fun k => listHasSub k (upperL s)) = true) := by
  constructor
  · intro response s h
    simp only [enhancedExtract] at h
    by_cases h0 : response.isEmpty
    · rw [if_pos h0] at h
      exact absurd h (by simp)
    · rw [if_neg h0] at h
      by_cases hv : ((!(pyStrip (rstripSemis (enhFenced (pyStrip response)))).isEmpty) &&
          containsKeyword (pyStrip (rstripSemis (enhFenced (pyStrip response))))) = true
      · rw [if_pos hv] at h
        obtain rfl := Option.some.inj h
        exact (Bool.and_eq_true _ _ |>.mp hv).2
      · rw [if_neg hv] at h
        exact scanLines_sound _ _ h
  · intro response s h
    rw [sqlPyRest] at h
    rcases haf : afterFirst fence response with _ | rest
    · rw [haf] at h
      exact scanFirstLine_sound _ _ h
    · simp only [haf] at h
      by_cases hf : listHasSub fence rest = true
      · rw [if_pos hf] at h
        by_cases hkw : kw4.any
            (fun k => listHasSub k (upperL (pyStrip (beforeFirst fence rest)))) = true
        · rw [if_pos hkw] at h
          obtain rfl := Option.some.inj h
          exact hkw
        · rw [if_neg hkw] at h
          exact scanFirstLine_sound _ _ h
      · rw [if_neg hf] at h
        exact scanFirstLine_sound _ _ h

/-- Witness for the amended C8: the theorem applied to the concrete response
"SELECT 1", which the enhanced extractor accepts, certifying its keyword. -/
theorem c8_sql_extractor_amended_witness :
    containsKeyword ("SELECT 1".toList) = true :=
  c8_sql_extractor_amended.1 ("SELECT 1".toList) ("SELECT 1".toList) (by decide)

theorem pyRowsEq_ne_of_mem : ∀ (p e : List (List Value)) (i : Nat)
    (h1 : i < p.length) (h2 : i < e.length),
    pyRowEq (p.get ⟨i, h1⟩) (e.get ⟨i, h2⟩) = false → pyRowsEq p e = false := by
  intro p
  induction p with
  | nil => intro e i h1 _ _; simp at h1
  | cons r rs ih =>
    intro e i h1 h2 hne
    cases e with
    | nil => simp [pyRowsEq]
    | cons t ts =>
      cases i with
      | zero =>
        simp only [List.get] at hne
        simp [pyRowsEq, hne]
      | succ n =>
        have hrec := ih ts n (by simpa using h1) (by simpa using h2)
          (by simpa using hne)
        simp [pyRowsEq, hrec]

/-- Claim C10, counterexample: Python's `==` coerces numerics elementwise
(`1 == 1.0`), so the permuted, structurally distinct row lists
`[(1,), (1.0,)]` and `[(1.0,), (1,)]` — reachable as INTEGER- and
REAL-typed cells — compare equal, and the strategy reports a match where
the claim asserts that reordered row lists never match. -/
theorem c10_db_strategy_counterexample :
    (List.Perm [[VInt 1], [VFloat 1]] [[VFloat 1], [VInt 1]]) ∧
    [[VInt 1], [VFloat 1]] ≠ [[VFloat 1], [VInt 1]] ∧
    compare_results_db (QueryResult.rows [[VInt 1], [VFloat 1]])
      (QueryResult.rows [[VFloat 1], [VInt 1]]) = true := by
  refine ⟨by decide, by decide, by decide⟩

/-- Claim C10, amended: the database-execution strategy's result comparison
is exact ordered equality under Python value equality (`==`, which
identifies `1`, `1.0` and `True`): reordered row lists report no match
whenever some position differs under Python row equality, and the
validation score is always exactly 0 or 1, never partial. -/
theorem c10_db_strategy_amended :
    (∀ (p e : List (List Value)), p.Perm e →
      (∃ i, ∃ h1 : i < p.length, ∃ h2 : i < e.length,
        pyRowEq (p.get ⟨i, h1⟩) (e.get ⟨i, h2⟩) = false) →
      compare_results_db (QueryResult.rows p) (QueryResult.rows e) = false) ∧
    (∀ (db2 : DB2) (g : Option PyStr) (mr : PyStr),
      (validate_db db2 g mr).2 = 0 ∨ (validate_db db2 g mr).2 = 1) := by
  constructor
  · rintro p e _ ⟨i, h1, h2, hne⟩
    exact pyRowsEq_ne_of_mem p e i h1 h2 hne
  · intro db2 g mr
    unfold validate_db
    rcases hex : sqlPyExtract mr with _ | psql
    · simp
    · simp only []
      by_cases hemp : psql.isEmpty
      · simp [hemp]
      · rw [if_neg hemp]
        rcases hdb : db2 psql with e | pres
        · simp
        · simp only []
          rcases g with _ | gsql
          · simp
          · by_cases hgsql : gsql.isEmpty
            · simp [hgsql]
            · rcases hdb2 : db2 gsql with e2 | gres
              · simp [hgsql, hdb2]
              · by_cases hcmp : compare_results_db pres gres = true
                · simp [hgsql, hdb2, hcmp]
                · simp [hgsql, hdb2, hcmp]

/-- Witness for the amended C10: swapped integer rows differ at position 0
under Python row equality and report no match; the score dichotomy at a
concrete oracle and response. -/
theorem c10_db_strategy_amended_witness :
    (compare_results_db (QueryResult.rows [[VInt 1], [VInt 2]])
        (QueryResult.rows [[VInt 2], [VInt 1]]) = false) ∧
    ((validate_db (fun _ => Except.ok (QueryResult.rows [[VInt 1]]))
        (some ("SELECT 2".toList)) ("```sql\nSELECT 1\n```".toList)).2 = 0 ∨
     (validate_db (fun _ => Except.ok (QueryResult.rows [[VInt 1]]))
        (some ("SELECT 2".toList)) ("```sql\nSELECT 1\n```".toList)).2 = 1) :=
  ⟨c10_db_strategy_amended.1 [[VInt 1], [VInt 2]] [[VInt 2], [VInt 1]]
      (by decide) ⟨0, by decide, by decide, by decide⟩,
   c10_db_strategy_amended.2 _ _ _⟩

/-- Claim C2: `evaluate_batch` yields exactly one record per sample and
preserves positions, for every evaluator (so in particular regardless of
collaborator failures); `evaluate_single` is a total function that converts
any generation or validation failure into a record with
`is_correct = false`, `score = 0`, and the error message. -/
theorem c2_orchestrator_batch (o : Orchestrator) (samples : List USample) :
    (evaluate_batch o samples).length = samples.length ∧
    (∀ i : Nat, (evaluate_batch o samples)[i]? =
      (samples[i]?).map (evaluate_single o)) ∧
    (∀ s e, (o.gen s = Except.error e ∨
        (∃ r, o.gen s = Except.ok r ∧ o.validate s r = Except.error e)) →
      (evaluate_single o s).is_correct = false ∧ (evaluate_single o s).score = 0 ∧
      (evaluate_single o s).error_message = some e) := by
  refine ⟨by simp [evaluate_batch], fun i => ?_, fun s e h => ?_⟩
  · simp [evaluate_batch]
  · rcases h with h | ⟨r, hg, hv⟩
    · simp [evaluate_single, h]
    · simp [evaluate_single, hg, hv]

/-- Witness for C2: a one-sample batch whose response generator raises. -/
theorem c2_orchestrator_batch_witness :
    ((evaluate_batch
        ⟨fun _ => Except.error ("boom".toList), fun _ _ => Except.ok (true, 1)⟩
        [⟨"s1".toList, "q".toList, "sql".toList, "easy".toList⟩]).length = 1) ∧
    ((evaluate_single
        ⟨fun _ => Except.error ("boom".toList), fun _ _ => Except.ok (true, 1)⟩
        ⟨"s1".toList, "q".toList, "sql".toList, "easy".toList⟩).score = 0) := by
  constructor
  · exact (c2_orchestrator_batch
      ⟨fun _ => Except.error ("boom".toList), fun _ _ => Except.ok (true, 1)⟩
      [⟨"s1".toList, "q".toList, "sql".toList, "easy".toList⟩]).1
  · exact ((c2_orchestrator_batch
      ⟨fun _ => Except.error ("boom".toList), fun _ _ => Except.ok (true, 1)⟩
      [⟨"s1".toList, "q".toList, "sql".toList, "easy".toList⟩]).2.2
      ⟨"s1".toList, "q".toList, "sql".toList, "easy".toList⟩ ("boom".toList)
      (Or.inl rfl)).2.1

/-- Claim C7, counterexample: for an empty collection of result records no
statistic is "defined and equal to 0": the overall-metrics mapping is the
empty dict with every statistic absent, and the grouped by-type variant
does not even return a mapping — it raises `KeyError` on the column-less
empty frame. -/
theorem c7_aggregator_counterexample :
    (¬ ∃ m : OverallMetrics, get_overall_metrics [] = some m) ∧
    (¬ ∃ l, get_metrics_by_type [] = Except.ok l) := by
  constructor
  · rintro ⟨m, hm⟩
    simp [get_overall_metrics] at hm
  · rintro ⟨l, hl⟩
    simp [get_metrics_by_type] at hl

/-- Claim C7, amended: for an empty collection no Aggregator statistic
raises a division error, but none is defined as 0 either:
`get_overall_metrics` alone is guarded (`if self.df.empty`) and returns the
empty mapping, while `get_metrics_by_type`, `get_metrics_by_difficulty` and
`get_error_analysis` raise `KeyError` on their first access to a column of
the column-less empty frame, before any division is reached. -/
theorem c7_aggregator_amended :
    get_overall_metrics [] = none ∧
    get_metrics_by_type [] = Except.error ("KeyError: evaluation_type".toList) ∧
    get_metrics_by_difficulty [] = Except.error ("KeyError: difficulty".toList) ∧
    get_error_analysis [] = Except.error ("KeyError: error_message".toList) :=
  ⟨rfl, rfl, rfl, rfl⟩

theorem countP_div_mem {α : Type} (p : α → Bool) (l : List α) (hne : ¬l.isEmpty = true) :
    0 ≤ ((l.countP p : ℚ)) / ((l.length : ℚ)) ∧
    ((l.countP p : ℚ)) / ((l.length : ℚ)) ≤ 1 := by
  have hlen : (0 : ℚ) < (l.length : ℚ) := by
    have h0 : l ≠ [] := fun h => hne (by simp [h])
    have := List.length_pos.mpr h0
    exact_mod_cast this
  constructor
  · positivity
  · rw [div_le_one hlen]
    exact_mod_cast List.countP_le_length p

theorem score_parameters_mem (e p : List (PyStr × Value)) :
    0 ≤ score_parameters e p ∧ score_parameters e p ≤ 1 := by
  unfold score_parameters
  by_cases h1 : e.isEmpty
  · simp [h1]
  · rw [if_neg h1]
    by_cases h2 : (!(required_keys.filter
        (fun k => (dlookup e k).isSome)).isEmpty) = true
    · rw [if_pos h2]
      apply countP_div_mem
      simp only [Bool.not_eq_true'] at h2
      simp [h2]
    · rw [if_neg h2]
      exact countP_div_mem _ _ h1

theorem sum_map_le_length {α : Type} (l : List α) (f : α → ℚ)
    (h : ∀ x ∈ l, f x ≤ 1) : (l.map f).sum ≤ (l.length : ℚ) := by
  induction l with
  | nil => simp
  | cons x xs ih =>
    simp only [List.map_cons, List.sum_cons, List.length_cons]
    have h1 := h x (by simp)
    have h2 := ih (fun y hy => h y (by simp [hy]))
    push_cast
    linarith

theorem sum_map_nonneg {α : Type} (l : List α) (f : α → ℚ)
    (h : ∀ x ∈ l, 0 ≤ f x) : 0 ≤ (l.map f).sum := by
  induction l with
  | nil => simp
  | cons x xs ih =>
    simp only [List.map_cons, List.sum_cons]
    have h1 := h x (by simp)
    have h2 := ih (fun y hy => h y (by simp [hy]))
    linarith

theorem evaluate_function_selection_mem (p e : List FCall) :
    0 ≤ evaluate_function_selection p e ∧ evaluate_function_selection p e ≤ 1 := by
  unfold evaluate_function_selection
  split_ifs <;> norm_num

theorem evaluate_parameter_accuracy_mem (p e : List FCall) :
    0 ≤ evaluate_parameter_accuracy p e ∧ evaluate_parameter_accuracy p e ≤ 1 := by
  unfold evaluate_parameter_accuracy
  by_cases h1 : e.isEmpty
  · simp [h1]
  · rw [if_neg h1]
    by_cases h2 : p.length ≠ e.length
    · rw [if_pos h2]
      norm_num
    · rw [if_neg h2]
      by_cases h3 : (!(paramsByName e).isEmpty) = true
      · rw [if_pos h3]
        have hne : paramsByName e ≠ [] := by
          intro hh
          rw [hh] at h3
          simp at h3
        have hlen : (0 : ℚ) < ((paramsByName e).length : ℚ) := by
          have := List.length_pos.mpr hne
          exact_mod_cast this
        have hub : ((paramsByName e).map (fun kv =>
            match plookup (paramsByName p) kv.1 with
            | none => (0 : ℚ)
            | some pp => score_parameters kv.2 pp)).sum ≤
            (((paramsByName e).length : ℚ)) := by
          apply sum_map_le_length
          intro kv _
          rcases plookup (paramsByName p) kv.1 with _ | pp
          · norm_num
          · exact (score_parameters_mem kv.2 pp).2
        have hlb : 0 ≤ ((paramsByName e).map (fun kv =>
            match plookup (paramsByName p) kv.1 with
            | none => (0 : ℚ)
            | some pp => score_parameters kv.2 pp)).sum := by
          apply sum_map_nonneg
          intro kv _
          rcases plookup (paramsByName p) kv.1 with _ | pp
          · norm_num
          · exact (score_parameters_mem kv.2 pp).1
        constructor
        · positivity
        · rw [div_le_one hlen]
          exact hub
      · rw [if_neg h3]
        norm_num

theorem evaluate_execution_success_mem (api : APIOracle) (p : List FCall) :
    0 ≤ evaluate_execution_success api p ∧ evaluate_execution_success api p ≤ 1 := by
  unfold evaluate_execution_success
  by_cases h : p.isEmpty
  · simp [h]
  · rw [if_neg h]
    exact countP_div_mem _ _ h

theorem evaluate_result_accuracy_mem (api : APIOracle) (p : List FCall) :
    0 ≤ evaluate_result_accuracy api p ∧ evaluate_result_accuracy api p ≤ 1 := by
  unfold evaluate_result_accuracy
  by_cases h : p.isEmpty
  · simp [h]
  · rw [if_neg h]
    exact countP_div_mem _ _ h

theorem fc_overall_mem (api : APIOracle) (q r : PyStr) :
    0 ≤ fc_overall api q r ∧ fc_overall api q r ≤ 1 := by
  unfold fc_overall
  obtain ⟨a1, a2⟩ := evaluate_function_selection_mem (extract_function_calls r)
    (get_expected_calls q)
  obtain ⟨b1, b2⟩ := evaluate_parameter_accuracy_mem (extract_function_calls r)
    (get_expected_calls q)
  obtain ⟨c1, c2⟩ := evaluate_execution_success_mem api (extract_function_calls r)
  obtain ⟨d1, d2⟩ := evaluate_result_accuracy_mem api (extract_function_calls r)
  constructor
  · apply div_nonneg _ (by norm_num)
    linarith
  · rw [div_le_one (by norm_num)]
    linarith

theorem test_result_correctness_mem (db : DB) (c' : PyStr) (e' : List Row) :
    0 ≤ (test_result_correctness db c' e').score ∧
    (test_result_correctness db c' e').score ≤ 1 := by
  unfold test_result_correctness
  rcases h : db (clean_sql c') with err | rows
  · simp
  · simp only []
    exact compare_results_mem rows e'

theorem binary_overall_mem (db : DB) (c es q : PyStr) (er : Option (List Row)) :
    0 ≤ (evaluate_binary_correctness db c es q er).overall_score ∧
    (evaluate_binary_correctness db c es q er).overall_score ≤ 1 := by
  have hov : (evaluate_binary_correctness db c es q er).overall_score =
      (evaluate_binary_correctness db c es q er).execution_accuracy.score * (0.4 : ℚ) +
      (evaluate_binary_correctness db c es q er).result_correctness.score * (0.6 : ℚ) := rfl
  have hexeq : (evaluate_binary_correctness db c es q er).execution_accuracy =
      test_execution db c := rfl
  have hexec : (test_execution db c).score = 0 ∨ (test_execution db c).score = 1 := by
    unfold test_execution
    rcases db (clean_sql c) with e | r <;> simp
  have hres : 0 ≤ (evaluate_binary_correctness db c es q er).result_correctness.score ∧
      (evaluate_binary_correctness db c es q er).result_correctness.score ≤ 1 := by
    clear hov hexeq
    have hrc : (evaluate_binary_correctness db c es q er).result_correctness =
        (if (test_execution db c).pass then
          match er with
          | some (r :: rs) => test_result_correctness db c (r :: rs)
          | _ => ⟨true, 1, "Query executed and returned results".toList⟩
        else ⟨false, 0, []⟩) := rfl
    rw [hrc]
    by_cases hp : (test_execution db c).pass
    · rw [if_pos hp]
      rcases er with _ | er'
      · simp
      · rcases er' with _ | ⟨r, rs⟩
        · simp
        · exact test_result_correctness_mem db c (r :: rs)
    · rw [if_neg hp]
      simp
  rw [hov, hexeq]
  obtain ⟨hr1, hr2⟩ := hres
  rcases hexec with h | h <;> rw [h] <;> constructor <;> nlinarith

/-- Claim C9: the overall score lies in `[0, 1]` for the function-call
scorer (for every API oracle, question and model response), for the SQL
scorer (for every data source, candidate SQL and expected result set), and
on the orchestrator's error path, where the produced record carries score
exactly 0. -/
theorem c9_scores_in_unit_interval :
    (∀ (api : APIOracle) (q r : PyStr),
      0 ≤ (validate_response_fc api q r).2 ∧ (validate_response_fc api q r).2 ≤ 1) ∧
    (∀ (db : DB) (c es q : PyStr) (er : Option (List Row)),
      0 ≤ (evaluate_binary_correctness db c es q er).overall_score ∧
      (evaluate_binary_correctness db c es q er).overall_score ≤ 1) ∧
    (∀ (o : Orchestrator) (s : USample),
      (evaluate_single o s).error_message.isSome = true →
      (evaluate_single o s).score = 0 ∧ 0 ≤ (evaluate_single o s).score ∧
      (evaluate_single o s).score ≤ 1) := by
  refine ⟨fun api q r => fc_overall_mem api q r, binary_overall_mem, fun o s h => ?_⟩
  have hs : (evaluate_single o s).score = 0 := by
    unfold evaluate_single at h ⊢
    rcases hg : o.gen s with e | resp
    · simp [hg]
    · rcases hv : o.validate s resp with e | cs
      · simp [hg, hv]
      · simp [hg, hv] at h
  rw [hs]
  norm_num

/-- Witness for C9's orchestrator-error-path conjunct at a concrete failing
evaluator. -/
theorem c9_scores_in_unit_interval_witness :
    (evaluate_single
        ⟨fun _ => Except.error ("down".toList), fun _ _ => Except.ok (true, 1)⟩
        ⟨"s2".toList, "q2".toList, "function".toList, "hard".toList⟩).score = 0 ∧
    0 ≤ (evaluate_single
        ⟨fun _ => Except.error ("down".toList), fun _ _ => Except.ok (true, 1)⟩
        ⟨"s2".toList, "q2".toList, "function".toList, "hard".toList⟩).score ∧
    (evaluate_single
        ⟨fun _ => Except.error ("down".toList), fun _ _ => Except.ok (true, 1)⟩
        ⟨"s2".toList, "q2".toList, "function".toList, "hard".toList⟩).score ≤ 1 :=
  c9_scores_in_unit_interval.2.2
    ⟨fun _ => Except.error ("down".toList), fun _ _ => Except.ok (true, 1)⟩
    ⟨"s2".toList, "q2".toList, "function".toList, "hard".toList⟩ rfl
